import Mathlib

/-
Verification development for the Intelligent-Desktop execution-gating
pipeline.  The Python sources under `src/` are shallowly embedded as
executable Lean definitions: pure string manipulation becomes functions on
`List Char` / `String`, stateful code becomes explicit state passing, and
fallible code returns `Except` / `Option`.  Python's `str.lower` is applied
characterwise (`Char.toLower`); the strings involved are ASCII or Chinese,
where the two agree.  Python's `set` iteration order is unspecified; it is
modelled as first-occurrence order (`List.dedup` keeps first occurrences),
which coincides with it on all single-element cases proved here.
-/

namespace IDesk

/-! ## String primitives (Python operators `in`, `startswith`, `lower`) -/

/-- Does the first list occur as a prefix of the second?  (Helper for the
Python substring operator.) -/
def listPre : List Char → List Char → Bool
  | [], _ => true
  | _ :: _, [] => false
  | c :: cs, d :: ds => c == d && listPre cs ds

/-- Python `needle in hay` on character lists. -/
def listSub (needle : List Char) : List Char → Bool
  | [] => needle.isEmpty
  | d :: t => listPre needle (d :: t) || listSub needle t

/-- Python `needle in hay` for strings. -/
def pyIn (needle hay : String) : Bool := listSub needle.data hay.data

/-- Python `s.startswith(pre)`. -/
def pyStarts (s pre : String) : Bool := listPre pre.data s.data

/-- Python `s.lower()` (characterwise; agrees with Python on the ASCII and
Chinese text appearing in this program). -/
def pyLower (s : String) : String := String.mk (s.data.map Char.toLower)

/-- Python `", ".join(paths)`. -/
def joinComma : List String → String
  | [] => ""
  | [p] => p
  | p :: ps => p ++ ", " ++ joinComma ps

/-! ## Sandboxed Interpreter — `src/mcp_server/sandbox.py`

`SandboxExecutor._get_safe_builtins` installs `safe_import` in place of the
builtin `__import__`.  Only that filtering function is security-relevant;
its outcome is either an `ImportError` or delegation to the real
`__import__` with the unchanged module name. -/

/-- Outcome of the sandbox's filtering import function. -/
inductive ImportOutcome where
  | importDenied (msg : String)
  | delegated (name : String)
deriving DecidableEq

/-- The fixed deny-list `dangerous_modules` of `_get_safe_builtins`. -/
def dangerous_modules : List String :=
  [ "subprocess", "shutil", "socket",
    "http", "urllib", "ftplib", "telnetlib",
    "pickle", "marshal", "ctypes", "importlib", "builtins",
    "multiprocessing", "threading", "concurrent",
    "webbrowser", "mimetypes",
    "cmd", "pipes", "pty", "fcntl", "resource",
    "signal", "select", "selectors",
    "hashlib", "hmac", "secrets", "uuid",
    "sqlite3", "dbm", "anydbm", "gdbm",
    "configparser", "xml", "html",
    "yaml", "toml", "base64",
    "binascii", "struct", "codecs",
    "platform", "getpass", "pwd", "grp",
    "netrc", "nturl2path", "ntpath", "posixpath",
    "macpath", "os2emxpath" ]

/-- Python `name.split('.')[0]`: the characters before the first dot. -/
def topModule (name : String) : String :=
  String.mk (name.data.takeWhile (fun c => c ≠ '.'))

/-- `safe_import` from `_get_safe_builtins`: the name's first component on
the deny-list, or the name a dotted extension of a denied module, raises
`ImportError`; everything else is delegated to the real `__import__`. -/
def safe_import (name : String) : ImportOutcome :=
  if topModule name ∈ dangerous_modules then
    .importDenied ("模块 '" ++ name ++ "' 被禁止在沙箱中导入（安全限制）")
  else if dangerous_modules.any (fun d => pyStarts name (d ++ ".")) then
    .importDenied ("模块 '" ++ name ++ "' 被禁止在沙箱中导入（安全限制）")
  else
    .delegated name

/-- A denial happens exactly when the top-level component is denied or the
name extends a denied module with a dot. -/
theorem safe_import_denied_iff (name : String) :
    (∃ msg, safe_import name = .importDenied msg) ↔
      (topModule name ∈ dangerous_modules ∨
        ∃ d ∈ dangerous_modules, pyStarts name (d ++ ".") = true) := by
  unfold safe_import
  by_cases h1 : topModule name ∈ dangerous_modules
  · simp [h1]
  · by_cases h2 : dangerous_modules.any (fun d => pyStarts name (d ++ ".")) = true
    · simp [h1, h2]
      exact List.any_eq_true.mp h2
    · simp [h1, h2]
      intro d hd
      have := List.any_eq_true.not.mp h2
      push_neg at this
      exact Bool.not_eq_true _ ▸ this d hd

/-! ## Elicitation timeout — `src/ui/pyqt_app.py`, `WorkerThread`

`_elicitation_callback` emits the request, stores a fresh future in
`self.elicitation_future` and awaits it with `asyncio.wait_for(…, 30.0)`.
On `TimeoutError` the awaited future is cancelled by `wait_for` and the
callback's result becomes `False`.  `set_elicitation_result` resolves the
future only while it exists and is not done. -/

/-- Status of the single-resolution asyncio future. -/
inductive FutureStatus where
  | pending
  | resolved (approved : Bool)
  | cancelled
deriving DecidableEq

/-- Python `future.done()`. -/
def FutureStatus.done : FutureStatus → Bool
  | .pending => false
  | _ => true

/-- The worker's elicitation state: `self.elicitation_future`
(`None` before any request). -/
structure WorkerElicit where
  elicitation_future : Option FutureStatus
deriving DecidableEq

/-- `set_elicitation_result(result)`: resolves the stored future unless it
is missing or already done (then a no-op). -/
def set_elicitation_result (st : WorkerElicit) (result : Bool) : WorkerElicit :=
  match st.elicitation_future with
  | some f => if f.done then st else { elicitation_future := some (.resolved result) }
  | none => st

/-- One `_elicitation_callback` round: a fresh future is stored; if a user
response arrives inside the 30-second window it resolves the future and is
returned, otherwise `wait_for` cancels the future and the callback returns
`False`. -/
def elicitationRound (_st : WorkerElicit) (responseWithin : Option Bool) :
    WorkerElicit × Bool :=
  let pendingSt : WorkerElicit := { elicitation_future := some .pending }
  match responseWithin with
  | some r => (set_elicitation_result pendingSt r, r)
  | none => ({ elicitation_future := some .cancelled }, false)

/-! ## Session Channel lifecycle — `src/mcp_client/client.py`, `SessionManager`

`connect` builds, in order: the stream context object, the entered stream,
the `ClientSession` object, the entered session; then `initialize` and
`list_tools` run and `connected` is set.  On any exception it runs
`await self.close()` and re-raises.  `close` starts with
`if not self.connected: return`. -/

/-- Resource state of a `SessionManager`. -/
structure SessionMgr where
  stream_ctx_set : Bool
  streamEntered : Bool
  sessionSet : Bool
  sessionEntered : Bool
  connected : Bool
deriving DecidableEq

/-- A freshly constructed `SessionManager`. -/
def SessionMgr.fresh : SessionMgr :=
  ⟨false, false, false, false, false⟩

/-- `SessionManager.close`: a no-op unless `connected`; otherwise it exits
the session and the stream context (exceptions swallowed) and clears all
fields. -/
def SessionMgr.close (st : SessionMgr) : SessionMgr :=
  if st.connected = false then st
  else ⟨false, false, false, false, false⟩

/-- Where `connect` can raise. -/
inductive ConnectFail where
  | streamEnter
  | sessionEnter
  | initCall
  | listTools
deriving DecidableEq

/-- `SessionManager.connect`, parameterised by the step (if any) at which
the remote interaction raises.  The returned `Bool` reports success; the
except-branch runs `close` on the partially built state and re-raises. -/
def SessionMgr.connect (st0 : SessionMgr) (fail : Option ConnectFail) :
    SessionMgr × Bool :=
  if st0.connected then (st0, true)
  else
    let s1 : SessionMgr := { st0 with stream_ctx_set := true }
    if fail = some .streamEnter then (s1.close, false)
    else
      let s2 : SessionMgr := { s1 with streamEntered := true, sessionSet := true }
      if fail = some .sessionEnter then (s2.close, false)
      else
        let s3 : SessionMgr := { s2 with sessionEntered := true }
        if fail = some .initCall then (s3.close, false)
        else if fail = some .listTools then (s3.close, false)
        else ({ s3 with connected := true }, true)

/-! ## Small regular-expression engine

`security.py` uses `re.search` over a fixed pattern list built from
literals, `\s`, `.`, character classes, `*`, `+`, one `(?:w|a|x)`
alternation and `\b`.  The engine below decides whether such a pattern
matches somewhere in a string (backtracking, fuelled — the fuel bounds the
call depth, which never exceeds `(length + 1) * pattern size`). -/

/-- Python `\s` character set. -/
def pyWsChar (c : Char) : Bool :=
  c == ' ' || c == '\t' || c == '\n' || c == '\r' || c == '\x0b' || c == '\x0c'

/-- Atoms of the pattern subset. -/
inductive RAtom where
  | lit (c : Char)
  | ws
  | dot
  | cls (cs : List Char)
deriving DecidableEq

/-- Does one atom match one character? -/
def RAtom.matchesC : RAtom → Char → Bool
  | .lit c, d => c == d
  | .ws, d => pyWsChar d
  | .dot, d => d ≠ '\n'
  | .cls cs, d => cs.contains d

/-- Pattern pieces: an atom, a starred or plussed atom, a group
alternation, or a word boundary. -/
inductive RPiece where
  | one (a : RAtom)
  | star (a : RAtom)
  | plus (a : RAtom)
  | alt (xs : List (List RPiece))
  | wordB

/-- Python `\w` (ASCII view, enough for the patterns of `security.py`). -/
def isWordChar (c : Char) : Bool := c.isAlphanum || c == '_'

/-- Is there a `\b` boundary between the previous character and the head of
the rest? -/
def atBoundary (prev : Option Char) (s : List Char) : Bool :=
  let before := match prev with | some c => isWordChar c | none => false
  let after := match s with | c :: _ => isWordChar c | [] => false
  before != after

/-- Does some prefix of `s` match the pieces?  `prev` is the character just
before `s` (for `\b`). -/
def matchPieces (fuel : Nat) (ps : List RPiece) (prev : Option Char)
    (s : List Char) : Bool :=
  match fuel with
  | 0 => false
  | fuel + 1 =>
    match ps with
    | [] => true
    | .wordB :: rest => atBoundary prev s && matchPieces fuel rest prev s
    | .one a :: rest =>
      match s with
      | c :: t => a.matchesC c && matchPieces fuel rest (some c) t
      | [] => false
    | .plus a :: rest =>
      match s with
      | c :: t => a.matchesC c && matchPieces fuel (.star a :: rest) (some c) t
      | [] => false
    | .star a :: rest =>
      matchPieces fuel rest prev s ||
        (match s with
         | c :: t => a.matchesC c && matchPieces fuel (.star a :: rest) (some c) t
         | [] => false)
    | .alt xs :: rest => xs.any (fun alte => matchPieces fuel (alte ++ rest) prev s)

/-- Try a match starting at every position (Python `re.search`). -/
def searchFrom (fuel : Nat) (ps : List RPiece) (prev : Option Char) :
    List Char → Bool
  | [] => matchPieces fuel ps prev []
  | c :: t => matchPieces fuel ps prev (c :: t) || searchFrom fuel ps (some c) t

/-- `re.search(pattern, s) is not None` for the supported subset. -/
def reSearch (ps : List RPiece) (s : String) : Bool :=
  searchFrom ((s.data.length + 1) * 64) ps none s.data

/-- Literal pattern pieces for a string. -/
def lits (s : String) : List RPiece := s.data.map (fun c => .one (.lit c))

/-! ## Security Classifier — `src/mcp_server/security.py` -/

/-- `SecurityChecker._load_dangerous_patterns`, each regex transcribed to
pieces (in order; source text in the comments). -/
def dangerous_patterns : List (List RPiece) :=
  [ lits "rm" ++ [.plus .ws] ++ lits "-rf",                   -- rm\s+-rf
    lits "format" ++ [.plus .ws],                             -- format\s+
    lits "del" ++ [.plus .ws] ++ lits "/f" ++ [.plus .ws] ++
      lits "/s" ++ [.plus .ws] ++ lits "/q",                  -- del\s+/f\s+/s\s+/q
    lits "Remove-Item" ++ [.plus .ws] ++ lits "-Recurse" ++
      [.plus .ws] ++ lits "-Force",                           -- Remove-Item\s+-Recurse\s+-Force
    lits "shutdown" ++ [.plus .ws],                           -- shutdown\s+
    lits "reboot" ++ [.plus .ws],                             -- reboot\s+
    lits "halt" ++ [.plus .ws],                               -- halt\s+
    lits "poweroff" ++ [.plus .ws],                           -- poweroff\s+
    lits "netstat" ++ [.plus .ws],                            -- netstat\s+
    lits "arp" ++ [.plus .ws],                                -- arp\s+
    lits "ipconfig" ++ [.plus .ws] ++ lits "/all",            -- ipconfig\s+/all
    lits "import" ++ [.plus .ws] ++ lits "os" ++ [.star .ws] ++
      lits ";" ++ [.star .ws] ++ lits "os.system",            -- import\s+os\s*;\s*os\.system
    lits "subprocess.run" ++ [.star .ws] ++ lits "(",         -- subprocess\.run\s*\(
    lits "eval" ++ [.star .ws] ++ lits "(",                   -- eval\s*\(
    lits "exec" ++ [.star .ws] ++ lits "(",                   -- exec\s*\(
    lits "open" ++ [.star .ws] ++ lits "(" ++ [.star .dot] ++
      lits "," ++ [.star .ws] ++ [.one (.cls [ '\'', '"' ])] ++
      [.alt [ lits "w", lits "a", lits "x" ]] ++
      [.one (.cls [ '\'', '"' ])],            -- open\s*\(.*,\s*['"](?:w|a|x)['"]
    lits "__import__" ++ [.star .ws] ++ lits "(",             -- __import__\s*\(
    lits "sudo" ++ [.plus .ws],                               -- sudo\s+
    lits "su" ++ [.plus .ws],                                 -- su\s+
    lits "passwd" ++ [.plus .ws] ]                            -- passwd\s+

/-- The regex `\bimport\s+os\b` of `_check_python_code`. -/
def importOsPattern : List RPiece :=
  [ .wordB ] ++ lits "import" ++ [.plus .ws] ++ lits "os" ++ [ .wordB ]

/-- One match attempt of the pattern `OP\s*([^)]*)` right after the literal
operation text: skip whitespace greedily, the group is the run of
non-`)` characters; returns the group and the scan position after it. -/
def matchTailA (opR : List Char) (t : List Char) : List Char × List Char :=
  let r1 := (t.drop opR.length).dropWhile pyWsChar
  let grp := r1.takeWhile (fun x => x ≠ ')')
  (grp, r1.drop grp.length)

/-- One match attempt of the pattern `OP\s*\(\s*([^)]*)\s*\)` right after
the literal operation text: whitespace, `(`, whitespace, the group of
non-`)` characters, then `)` must follow (the group keeps trailing
whitespace, as the greedy `[^)]*` eats it).  `none` when the parentheses
are missing. -/
def matchTailB (opR : List Char) (t : List Char) : Option (List Char × List Char) :=
  match (t.drop opR.length).dropWhile pyWsChar with
  | [] => none
  | c :: r2 =>
    if c = '(' then
      let r3 := r2.dropWhile pyWsChar
      let grp := r3.takeWhile (fun x => x ≠ ')')
      match r3.drop grp.length with
      | [] => none
      | d :: r5 => if d = ')' then some (grp, r5) else none
    else none

/-- `re.findall(rf"{op}\s*([^)]*)", code)` for an operation that contains a
parenthesis (such as `open(`): non-overlapping, scanning resumes after the
captured group.  The fuel only bounds the scan (a step always advances) and
is supplied as the input length plus one. -/
def findallA (op0 : Char) (opR : List Char) : Nat → List Char → List (List Char)
  | _, [] => []
  | 0, _ => []
  | fuel + 1, c :: t =>
    if listPre (op0 :: opR) (c :: t) then
      (matchTailA opR t).1 :: findallA op0 opR fuel (matchTailA opR t).2
    else findallA op0 opR fuel t

/-- `re.findall(rf"{op}\s*\(\s*([^)]*)\s*\)", code)` for an operation
without a parenthesis (such as `os.remove`): non-overlapping, scanning
resumes after the closing parenthesis; where the pattern fails the scan
advances one character. -/
def findallB (op0 : Char) (opR : List Char) : Nat → List Char → List (List Char)
  | _, [] => []
  | 0, _ => []
  | fuel + 1, c :: t =>
    if listPre (op0 :: opR) (c :: t) then
      match matchTailB opR t with
      | some (grp, r5) => grp :: findallB op0 opR fuel r5
      | none => findallB op0 opR fuel t
    else findallB op0 opR fuel t

/-- Content scan for the quoted-string regexes
`'([^'\\]*(\\.[^'\\]*)*)'` and its double-quote twin: characters other than
the quote and the backslash pass, a backslash escapes any character except a
newline (`.`), an unescaped quote closes.  Returns the captured content
(escapes kept verbatim, as `re.findall` keeps the group text) and the rest
after the closing quote. -/
def quotedTail (q : Char) : List Char → Option (List Char × List Char)
  | [] => none
  | c :: t =>
    if c = q then some ([], t)
    else if c = '\\' then
      match t with
      | [] => none
      | d :: t2 =>
        if d = '\n' then none
        else (fun p : List Char × List Char => (c :: d :: p.1, p.2)) <$> quotedTail q t2
    else (fun p : List Char × List Char => (c :: p.1, p.2)) <$> quotedTail q t

/-- `re.findall` of the quoted-string regex over a match's text: at each
position a quote opens a candidate; on success scanning resumes after the
closing quote, otherwise at the next character. -/
def scanQuoted (q : Char) : Nat → List Char → List (List Char)
  | _, [] => []
  | 0, _ => []
  | fuel + 1, c :: t =>
    if c = q then
      match quotedTail q t with
      | some (content, rest) => content :: scanQuoted q fuel rest
      | none => scanQuoted q fuel t
    else scanQuoted q fuel t

/-- Maximal runs of `\w` characters in a string, as matched by
`\b([a-zA-Z_][a-zA-Z0-9_]*)\b`: a run qualifies only when it starts with a
letter or an underscore (a leading digit leaves no `\b` inside the run). -/
def wordRuns : Nat → List Char → List (List Char)
  | _, [] => []
  | 0, _ => []
  | fuel + 1, c :: t =>
    if isWordChar c then
      let run := c :: t.takeWhile isWordChar
      let rest := t.dropWhile isWordChar
      if c.isAlpha || c = '_' then run :: wordRuns fuel rest else wordRuns fuel rest
    else wordRuns fuel t

/-- `filter_keywords` of `_extract_file_paths`. -/
def filter_keywords : List String :=
  [ "'w'", "\"w\"", "'a'", "\"a\"", "'x'", "\"x\"", "w", "a", "x" ]

/-- The paths of one regex match (`current_paths` in the source): the
single- then double-quoted literals, filtered against `filter_keywords`;
when no quoted literal matched at all, the identifier-like runs that
contain none of `True`, `False`, `None` or a filter keyword as a substring,
each tagged `(变量)`.  `set` insertion is modelled as first-occurrence
dedup. -/
def pathsOfMatch (m : List Char) : List String :=
  let singles := (scanQuoted '\'' (m.length + 1) m).map (fun cs => String.mk cs)
  let doubles := (scanQuoted '"' (m.length + 1) m).map (fun cs => String.mk cs)
  if singles.isEmpty && doubles.isEmpty then
    let vars := (wordRuns (m.length + 1) m).map (fun cs => String.mk cs)
    ((vars.filter (fun v => v ≠ "" &&
        !(([ "True", "False", "None" ] ++ filter_keywords).any (fun k => pyIn k v)))).map
      (fun v => v ++ " (变量)")).dedup
  else
    ((singles ++ doubles).filter
      (fun p => p ≠ "" && !(filter_keywords.contains p))).dedup

/-- All matches of one operation in the code (`re.findall` with the
operation-specific pattern). -/
def opMatches (code : List Char) (op : String) : List (List Char) :=
  match op.data with
  | [] => []
  | c0 :: cR =>
    if op.data.contains '(' then findallA c0 cR (code.length + 1) code
    else findallB c0 cR (code.length + 1) code

/-- `SecurityChecker._extract_file_paths`: paths of every match of every
operation, deduplicated, empties dropped, at most five. -/
def extract_file_paths (code : String) (operations : List String) : List String :=
  let file_paths := operations.foldl
    (fun acc op => acc ++ ((opMatches code.data op).map pathsOfMatch).flatten) []
  let unique_paths := file_paths.dedup
  let filtered_paths := unique_paths.filter (fun p => p ≠ "")
  filtered_paths.take 5

/-- `write_modes` of `check_dangerous_operation`. -/
def write_modes : List String :=
  [ "'w'", "\"w\"", "'a'", "\"a\"", "'x'", "\"x\"" ]

/-- `dangerous_delete_patterns` of `check_dangerous_operation`. -/
def dangerous_delete_patterns : List String :=
  [ "os.remove", "os.unlink", "os.rmdir", "os.removedirs", "shutil.rmtree",
    ".unlink", ".remove", ".rmdir", ".removedirs" ]

/-- `dangerous_dir_keywords` of `check_dangerous_operation`. -/
def dangerous_dir_keywords : List String :=
  [ "os.mkdir", "os.makedirs", "os.listdir", "os.walk" ]

/-- The shared `dangerous_keywords` list (used both by
`check_dangerous_operation` and `_check_python_code`). -/
def dangerous_keywords : List String :=
  [ "os.system", "subprocess", "eval(", "exec(", "__import__",
    "compile(", "pickle", "marshal",
    "socket", "urllib", "requests", "http.client", "https.client" ]

/-- `SecurityChecker.check_dangerous_operation`: `none` means clear, `some`
carries the confirmation message.  The branches run in the source's order:
write-mode `open`, then delete operations, then directory operations, then
the hard-denied keyword list. -/
def check_dangerous_operation (code : String) : Option String :=
  let cl := pyLower code
  if pyIn "open(" cl && write_modes.any (fun m => pyIn m cl) then
    let files := extract_file_paths code [ "open(" ]
    if files.isEmpty then some "检测到文件写入操作，是否确认执行？"
    else some ("检测到文件写入操作，要写入的文件: " ++ joinComma files ++ "，是否确认执行？")
  else if dangerous_delete_patterns.any (fun op => pyIn op cl) then
    let delete_files := (dangerous_delete_patterns.foldl
      (fun acc op => if pyIn op cl then acc ++ extract_file_paths code [ op ] else acc)
      []).dedup
    if delete_files.isEmpty then some "检测到文件删除操作，是否确认执行？"
    else some ("检测到文件删除操作，要删除的文件: " ++ joinComma delete_files ++ "，是否确认执行？")
  else
    match dangerous_dir_keywords.find? (fun k => pyIn k cl) with
    | some k =>
      let dirs := extract_file_paths code [ k ]
      if dirs.isEmpty then some "检测到目录操作，是否确认执行？"
      else some ("检测到目录操作，操作的目录: " ++ joinComma dirs ++ "，是否确认执行？")
    | none =>
      match dangerous_keywords.find? (fun k => pyIn k cl) with
      | some k => some ("检测到危险操作: " ++ k ++ "，是否确认执行？")
      | none => none

/-! ## JSON — model of Python `json.loads`

The client and the security wrapper handle values decoded from JSON.
`json_loads` below accepts exactly the strict `json` grammar (plus the
`NaN` / `Infinity` constants Python's decoder allows); numbers keep their
lexeme, which no modelled code path inspects numerically. -/

/-- A decoded JSON value. -/
inductive JVal where
  | null
  | jbool (b : Bool)
  | jnum (raw : String)
  | jstr (s : String)
  | jarr (elems : List JVal)
  | jobj (fields : List (String × JVal))

/-- JSON whitespace (what Python's decoder skips). -/
def jsonWs (c : Char) : Bool := c == ' ' || c == '\t' || c == '\n' || c == '\r'

/-- Skip JSON whitespace. -/
def skipJWs (s : List Char) : List Char := s.dropWhile jsonWs

/-- Hexadecimal digit? -/
def isHexDig (c : Char) : Bool :=
  c.isDigit || ('a' ≤ c && c ≤ 'f') || ('A' ≤ c && c ≤ 'F')

/-- Value of a hexadecimal digit. -/
def hexVal (c : Char) : Nat :=
  if c.isDigit then c.toNat - 48
  else if 'a' ≤ c && c ≤ 'f' then c.toNat - 87
  else c.toNat - 55

/-- Single-character JSON escapes. -/
def escChar (e : Char) : Option Char :=
  if e = '"' then some '"'
  else if e = '\\' then some '\\'
  else if e = '/' then some '/'
  else if e = 'b' then some '\x08'
  else if e = 'f' then some '\x0c'
  else if e = 'n' then some '\n'
  else if e = 'r' then some '\r'
  else if e = 't' then some '\t'
  else none

/-- Scan a JSON string body after the opening quote: decoded content and
the rest after the closing quote.  Raw control characters are rejected
(Python's strict mode). -/
def jstrTail : List Char → Option (List Char × List Char)
  | [] => none
  | c :: t =>
    if c = '"' then some ([], t)
    else if c = '\\' then
      match t with
      | [] => none
      | e :: t2 =>
        match escChar e with
        | some ec => (fun p : List Char × List Char => (ec :: p.1, p.2)) <$> jstrTail t2
        | none =>
          if e = 'u' then
            match t2 with
            | h1 :: h2 :: h3 :: h4 :: t3 =>
              if isHexDig h1 && isHexDig h2 && isHexDig h3 && isHexDig h4 then
                (fun p : List Char × List Char =>
                  (Char.ofNat (((hexVal h1 * 16 + hexVal h2) * 16 + hexVal h3) * 16 + hexVal h4) :: p.1, p.2)) <$>
                  jstrTail t3
              else none
            | _ => none
          else none
    else if c.toNat < 32 then none
    else (fun p : List Char × List Char => (c :: p.1, p.2)) <$> jstrTail t

/-- Take and drop the leading digits. -/
def digitSpan (s : List Char) : List Char × List Char :=
  (s.takeWhile Char.isDigit, s.dropWhile Char.isDigit)

/-- The optional fraction part `(\.\d+)?`. -/
def jnumFrac (r : List Char) : List Char × List Char :=
  match r with
  | '.' :: t =>
    let (ds, rr) := digitSpan t
    if ds.isEmpty then ([], r) else ('.' :: ds, rr)
  | _ => ([], r)

/-- The optional exponent part `([eE][-+]?\d+)?`. -/
def jnumExp (r : List Char) : List Char × List Char :=
  match r with
  | e :: t =>
    if e = 'e' || e = 'E' then
      match t with
      | s :: t2 =>
        if s = '+' || s = '-' then
          let (ds, rr) := digitSpan t2
          if ds.isEmpty then ([], r) else (e :: s :: ds, rr)
        else
          let (ds, rr) := digitSpan t
          if ds.isEmpty then ([], r) else (e :: ds, rr)
      | [] => ([], r)
    else ([], r)
  | [] => ([], r)

/-- A JSON number lexeme `-?(0|[1-9]\d*)(\.\d+)?([eE][-+]?\d+)?`. -/
def jnumTail (s : List Char) : Option (List Char × List Char) :=
  let (sign, s1) : List Char × List Char :=
    match s with
    | '-' :: t => (['-'], t)
    | _ => ([], s)
  match s1 with
  | [] => none
  | c :: t =>
    if c = '0' ∨ (c.isDigit ∧ c ≠ '0') then
      let (intR, r0) : List Char × List Char :=
        if c = '0' then ([c], t)
        else let (ds, r) := digitSpan t; (c :: ds, r)
      let (fr, r1) := jnumFrac r0
      let (ex, r2) := jnumExp r1
      some (sign ++ intR ++ fr ++ ex, r2)
    else none

/-- Parser modes: a value, the members of an object (after `{`), or the
elements of an array (after `[`).  One function keeps the recursion
structural on the fuel, so the kernel can evaluate it. -/
inductive PMode where
  | pvalue
  | pmembers (acc : List (String × JVal))
  | pelems (acc : List JVal)

/-- Parse in the given mode at the head of `s` (whitespace already
skipped).  The fuel only bounds the recursion depth; `json_loads` supplies
more than any input can use. -/
def parseStep : Nat → PMode → List Char → Option (JVal × List Char)
  | 0, _, _ => none
  | fuel + 1, .pvalue, s =>
    if listPre "true".data s then some (.jbool true, s.drop 4)
    else if listPre "false".data s then some (.jbool false, s.drop 5)
    else if listPre "null".data s then some (.null, s.drop 4)
    else if listPre "NaN".data s then some (.jnum "NaN", s.drop 3)
    else if listPre "Infinity".data s then some (.jnum "Infinity", s.drop 8)
    else if listPre "-Infinity".data s then some (.jnum "-Infinity", s.drop 9)
    else
      (match s with
       | '{' :: t =>
         (match skipJWs t with
          | '}' :: r => some (.jobj [], r)
          | s1 => parseStep fuel (.pmembers []) s1)
       | '[' :: t =>
         (match skipJWs t with
          | ']' :: r => some (.jarr [], r)
          | s1 => parseStep fuel (.pelems []) s1)
       | '"' :: t =>
         (fun p : List Char × List Char => (JVal.jstr (String.mk p.1), p.2)) <$> jstrTail t
       | _ =>
         (fun p : List Char × List Char => (JVal.jnum (String.mk p.1), p.2)) <$> jnumTail s)
  | fuel + 1, .pmembers acc, s =>
    (match s with
     | '"' :: t =>
       (match jstrTail t with
        | none => none
        | some (kcs, r1) =>
          (match skipJWs r1 with
           | ':' :: r3 =>
             (match parseStep fuel .pvalue (skipJWs r3) with
              | none => none
              | some (v, r4) =>
                let acc2 := acc ++ [(String.mk kcs, v)]
                (match skipJWs r4 with
                 | ',' :: r6 => parseStep fuel (.pmembers acc2) (skipJWs r6)
                 | '}' :: r6 => some (.jobj acc2, r6)
                 | _ => none))
           | _ => none))
     | _ => none)
  | fuel + 1, .pelems acc, s =>
    (match parseStep fuel .pvalue s with
     | none => none
     | some (v, r1) =>
       (match skipJWs r1 with
        | ',' :: r3 => parseStep fuel (.pelems (acc ++ [v])) (skipJWs r3)
        | ']' :: r3 => some (.jarr (acc ++ [v]), r3)
        | _ => none))

/-- Python `json.loads(s)`: one value, whitespace allowed around it,
nothing after. -/
def json_loads (s : String) : Option JVal :=
  match parseStep (s.data.length * 2 + 8) .pvalue (skipJWs s.data) with
  | some (v, rest) => if (skipJWs rest).isEmpty then some v else none
  | none => none

/-- Does `json.loads` succeed? -/
def isValidJson (s : String) : Bool := (json_loads s).isSome

/-! ## Security Classifier, tool-call side — `security.py` continued -/

/-- `dangerous_os_patterns` of `_check_python_code`. -/
def dangerous_os_patterns : List String :=
  [ "os.system", "os.popen", "os.spawn", "os.exec", "os.fork", "os.kill" ]

/-- `SecurityChecker._check_python_code`: `true` = safe.  Hard-denied
keywords first; then a genuine `import os` statement combined with a
dangerous os call; then a write-mode `open`; everything else passes. -/
def check_python_code (code : String) : Bool :=
  let cl := pyLower code
  if dangerous_keywords.any (fun k => pyIn k cl) then false
  else if reSearch importOsPattern cl &&
      dangerous_os_patterns.any (fun p => pyIn p cl) then false
  else if pyIn "open(" cl && write_modes.any (fun m => pyIn m cl) then false
  else true

/-- `config["security"]["dangerous_commands"]`.  No `config.yaml` ships
with the repository, so `ConfigLoader` falls back to
`_get_default_config()`, whose list this is. -/
def config_dangerous_commands : List String :=
  [ "rm -rf", "format", "shutdown", "reboot" ]

/-- `SecurityChecker._check_system_command`: `true` = safe. -/
def check_system_command (command : String) : Bool :=
  let cl := pyLower command
  if dangerous_patterns.any (fun p => reSearch p cl) then false
  else if config_dangerous_commands.any (fun c => pyIn c cl) then false
  else true

/-- `tool_args.get(key, "")`: tool arguments arrive as a JSON object; a
missing key yields the empty string default.  Python's dict keeps the last
duplicate key. -/
def getArg (args : List (String × JVal)) (k : String) : JVal :=
  match args.reverse.find? (fun p => p.1 = k) with
  | some p => p.2
  | none => .jstr ""

/-- The body of `check_tool_call`'s `try` block.  A non-string `code` /
`command` argument makes `.lower()` raise `AttributeError`, modelled as
`.error`. -/
def check_tool_call_body (tool_name : String) (tool_args : List (String × JVal)) :
    Except String Bool :=
  if tool_name = "execute_python" then
    match getArg tool_args "code" with
    | .jstr code => .ok (check_python_code code)
    | _ => .error "AttributeError: lower"
  else if tool_name = "system_command" then
    match getArg tool_args "command" with
    | .jstr command => .ok (check_system_command command)
    | _ => .error "AttributeError: lower"
  else .ok true

/-- `SecurityChecker.check_tool_call`: the `except` clause turns any
internal exception into `False` (fail closed); the function is total, so
nothing propagates to the caller. -/
def check_tool_call (tool_name : String) (tool_args : List (String × JVal)) : Bool :=
  match check_tool_call_body tool_name tool_args with
  | .ok b => b
  | .error _ => false

/-! ## `execute_python` tool — `src/mcp_server/server.py`

The tool body first classifies the code; a non-clear verdict triggers
`ctx.elicit`, and only the response `action == "accept"` with
`data.confirmed` truthy lets the sandbox run.  The elicitation exchange is
modelled as a function from the emitted message to the response. -/

/-- MCP elicitation actions. -/
inductive ElicitAction where
  | accept
  | decline
  | cancel
deriving DecidableEq

/-- An `ElicitResult` as `execute_python` reads it:
`getattr(result.data, "confirmed", False)` defaults to `False`. -/
structure ElicitOutcome where
  action : ElicitAction
  confirmed : Bool
deriving DecidableEq

/-- What the `execute_python` tool body did. -/
inductive ExecPyResult where
  | userCancelled (success : Bool) (error : String)
  | sandboxExecuted (code : String)
deriving DecidableEq

/-- The `execute_python` tool body.  `sandboxExecuted code` marks that
`self.sandbox.execute_code(code, …)` ran. -/
def execute_python (code : String) (elicit : String → ElicitOutcome) : ExecPyResult :=
  match check_dangerous_operation code with
  | some msg =>
    let result := elicit msg
    if result.action ≠ .accept || !result.confirmed then
      .userCancelled false "用户取消执行"
    else
      .sandboxExecuted code
  | none => .sandboxExecuted code

/-! ## JSON repair — `src/mcp_client/llm.py`

`validate_and_fix_json` first tries `json.loads`; on failure it removes
control characters, runs four `re.sub` passes, patches an odd quote count,
balances braces and brackets, and keeps the result only if it now parses —
otherwise the original string comes back.  Each regex is deterministic
(greedy classes stop at the next quote / whitespace run and nothing can
backtrack past them), so each pass is a left-to-right scan: on a match the
replacement is emitted and scanning resumes after the match, else one
character passes through. -/

/-- One `re.sub` pass: `f` attempts a match at the current position and
returns replacement text and the rest after the match. -/
def subScan (f : List Char → Option (List Char × List Char)) :
    Nat → List Char → List Char
  | _, [] => []
  | 0, s => s
  | fuel + 1, c :: t =>
    match f (c :: t) with
    | some (rep, rest) => rep ++ subScan f fuel rest
    | none => c :: subScan f fuel t

/-- Run a pass with enough fuel for the whole string. -/
def applySub (f : List Char → Option (List Char × List Char)) (s : List Char) :
    List Char :=
  subScan f (s.length + 1) s

/-- Matcher for `"[^"]+":` — a quoted nonempty key and its colon.
Returns the matched text and the rest. -/
def matchKeyColon : List Char → Option (List Char × List Char)
  | '"' :: t =>
    let content := t.takeWhile (fun c => c ≠ '"')
    if content.isEmpty then none
    else
      match t.drop content.length with
      | '"' :: ':' :: r => some ('"' :: content ++ [ '"', ':' ], r)
      | _ => none
  | _ => none

/-- Matcher for `"[^"]+":\s*"[^"]+"` — key, colon, whitespace and a closed
nonempty string value. -/
def matchKeyVal (s : List Char) : Option (List Char × List Char) :=
  match matchKeyColon s with
  | some (kc, r1) =>
    let ws := r1.takeWhile pyWsChar
    (match r1.drop ws.length with
     | '"' :: r3 =>
       let content := r3.takeWhile (fun c => c ≠ '"')
       if content.isEmpty then none
       else
         (match r3.drop content.length with
          | '"' :: r4 => some (kc ++ ws ++ '"' :: content ++ [ '"' ], r4)
          | _ => none)
     | _ => none)
  | none => none

/-- Pass 1, `("[^"]+":\s*)"([^"]*)(\s*"[^"]+":)` → `\1"\2", \3`: closes a
string value left unclosed before the next key. -/
def tryFixUnclosed (s : List Char) : Option (List Char × List Char) :=
  match matchKeyColon s with
  | some (kc, r1) =>
    let ws := r1.takeWhile pyWsChar
    (match r1.drop ws.length with
     | '"' :: r3 =>
       let g2 := r3.takeWhile (fun c => c ≠ '"')
       (match matchKeyColon (r3.drop g2.length) with
        | some (g3, r5) =>
          some (kc ++ ws ++ '"' :: g2 ++ [ '"', ',', ' ' ] ++ g3, r5)
        | none => none)
     | _ => none)
  | none => none

/-- Pass 2, `\{\s*,\s*"[^"]+":` → `{ "`: drops a comma straight after an
opening brace (the key text itself is lost in the replacement — as in the
source). -/
def tryFixBraceComma (s : List Char) : Option (List Char × List Char) :=
  match s with
  | '{' :: r1 =>
    (match r1.dropWhile pyWsChar with
     | ',' :: r3 =>
       (match matchKeyColon (r3.dropWhile pyWsChar) with
        | some (_, r5) => some ([ '\x7b', ' ', '"' ], r5)
        | none => none)
     | _ => none)
  | _ => none

/-- Pass 3, `("[^"]+":\s*"[^"]+")(,\s*)(,\s*)("[^"]+":)` → `\1, \4`:
collapses a doubled comma between two members. -/
def tryFixDoubleComma (s : List Char) : Option (List Char × List Char) :=
  match matchKeyVal s with
  | some (g1, r1) =>
    (match r1 with
     | ',' :: r2 =>
       (match r2.dropWhile pyWsChar with
        | ',' :: r4 =>
          (match matchKeyColon (r4.dropWhile pyWsChar) with
           | some (g4, r6) => some (g1 ++ [ ',', ' ' ] ++ g4, r6)
           | none => none)
        | _ => none)
     | _ => none)
  | none => none

/-- Pass 4, `("[^"]+":\s*"[^"]+")("[^"]+":)` → `\1, \2`: inserts the comma
missing between two members. -/
def tryFixMissingComma (s : List Char) : Option (List Char × List Char) :=
  match matchKeyVal s with
  | some (g1, r1) =>
    (match matchKeyColon r1 with
     | some (g2, r2) => some (g1 ++ [ ',', ' ' ] ++ g2, r2)
     | none => none)
  | none => none

/-- Index of the last occurrence of a character (Python `str.rfind`). -/
def rfindIdx (c : Char) (s : List Char) : Option Nat :=
  match s.reverse.findIdx? (fun d => d = c) with
  | some j => some (s.length - 1 - j)
  | none => none

/-- Step 4 of the repair: with an odd number of quotes, insert one right
after the last quote, provided a colon exists and the last quote follows
it. -/
def fixOddQuotes (s : List Char) : List Char :=
  if s.count '"' % 2 ≠ 0 then
    match rfindIdx ':' s with
    | none => s
    | some lc =>
      match rfindIdx '"' s with
      | none => s
      | some lq =>
        if lq > lc then s.take (lq + 1) ++ '"' :: s.drop (lq + 1) else s
  else s

/-- Step 5: append missing closers or prepend missing openers. -/
def balanceChars (opc clc : Char) (s : List Char) : List Char :=
  let o := s.count opc
  let cl := s.count clc
  if o > cl then s ++ List.replicate (o - cl) clc
  else if cl > o then List.replicate (cl - o) opc ++ s
  else s

/-- Remove control characters (`[\x00-\x1F\x7F]`). -/
def removeCtrl (s : List Char) : List Char :=
  s.filter (fun c => !(c.toNat ≤ 31 || c.toNat = 127))

/-- `LLMClient.validate_and_fix_json`. -/
def validate_and_fix_json (json_str : String) : String :=
  if isValidJson json_str then json_str
  else
    let f0 := removeCtrl json_str.data
    let f1 := applySub tryFixUnclosed f0
    let f2 := applySub tryFixBraceComma f1
    let f3 := applySub tryFixDoubleComma f2
    let f4 := applySub tryFixMissingComma f3
    let f5 := fixOddQuotes f4
    let f6 := balanceChars '{' '}' f5
    let f7 := balanceChars '[' ']' f6
    let fixed := String.mk f7
    if isValidJson fixed then fixed else json_str

/-- Python `s.strip()` (ASCII whitespace, which is all that occurs here). -/
def pyStrip (s : String) : String :=
  String.mk (((s.data.dropWhile pyWsChar).reverse.dropWhile pyWsChar).reverse)

/-- Python `s.endswith(suffix)`. -/
def pyEnds (s suffix : String) : Bool :=
  listPre suffix.data.reverse s.data.reverse

/-- Python `s.split('\n')`. -/
def splitOnNl : List Char → List (List Char)
  | [] => [ [] ]
  | c :: t =>
    if c = '\n' then [] :: splitOnNl t
    else
      match splitOnNl t with
      | [] => [ [ c ] ]
      | l :: ls => (c :: l) :: ls

/-- Python `'\n'.join(lines)`. -/
def joinNl : List (List Char) → List Char
  | [] => []
  | [ l ] => l
  | l :: ls => l ++ '\n' :: joinNl ls

/-- The text before the first occurrence of a needle
(Python `line[:line.index(needle)]`). -/
def beforeSub (needle : List Char) : List Char → List Char
  | [] => []
  | c :: t => if listPre needle (c :: t) then [] else c :: beforeSub needle t

/-- The comment-removal loop of `clean_json_response`: the in-string flag
toggles on a line with an odd quote count, and `//` comments are cut only
outside strings (flag checked after the toggle, as in the source). -/
def stripLineComments : Bool → List (List Char) → List (List Char)
  | _, [] => []
  | inStr, line :: rest =>
    let inStr2 := if line.count '"' % 2 ≠ 0 then !inStr else inStr
    let line2 :=
      if !inStr2 && listSub "//".data line then beforeSub "//".data line else line
    line2 :: stripLineComments inStr2 rest

/-- `LLMClient.clean_json_response`: strip, early return when already
valid, drop markdown fences, cut `//` comments, re-strip, then
`validate_and_fix_json`. -/
def clean_json_response (response : String) : String :=
  let r0 := pyStrip response
  if isValidJson r0 then r0
  else
    let r1 := if pyStarts r0 "```json" then String.mk (r0.data.drop 7) else r0
    let r2 := if pyStarts r1 "```" then String.mk (r1.data.drop 3) else r1
    let r3 :=
      if pyEnds r2 "```" then String.mk (r2.data.take (r2.data.length - 3)) else r2
    let cleaned := stripLineComments false (splitOnNl r3.data)
    let r4 := pyStrip (String.mk (joinNl cleaned))
    validate_and_fix_json r4

/-! ## Tool dispatch with retry — `src/mcp_client/client.py`, `MCPClient`

`send_tool_call` attempts `session.call_tool` up to
`retry_attempts` (3 by default config — no `config.yaml` ships, so the
default applies) times; a success is normalised from the first content
item, a failure on the last attempt re-raises, earlier failures are logged
and retried after a sleep.  One attempt's remote interaction is modelled as
`Except`: the error string is the raised exception's text. -/

/-- The first content item of a `call_tool` result (`noContent` carries
`str(result)` for the fallback branch). -/
inductive ToolContent where
  | textItem (text : String)
  | dataItem (data : String)
  | noContent (rawRepr : String)
deriving DecidableEq

/-- The `result` value inside `{"type": "tool_response", …}`: a parsed
JSON dict, or a plain string (raw text, `data`, and `str(result)` are all
strings in this model). -/
inductive ToolPayload where
  | jdict (fields : List (String × JVal))
  | text (s : String)
  | rdata (s : String)
  | raw (s : String)

/-- What one `send_tool_call` invocation does. -/
inductive ToolCallOutcome where
  | response (p : ToolPayload)
  | errorDict (e : String)
  | raised (e : String)

/-- Normalisation of a successful attempt: text that decodes to a JSON
dict is returned decoded, other text verbatim, `data` as is, and
`str(result)` when no text or data item exists. -/
def parseToolContent (c : ToolContent) : ToolPayload :=
  match c with
  | .textItem text =>
    (match json_loads text with
     | some (.jobj fields) => .jdict fields
     | _ => .text text)
  | .dataItem d => .rdata d
  | .noContent r => .raw r

/-- `retry_attempts` from the default configuration. -/
def retry_attempts : Nat := 3

/-- The `for attempt in range(retry_attempts)` loop of `send_tool_call`.
`remaining` is the number of iterations left (structural fuel — the source
loop runs at most `retry` times); `i` is `attempt`. -/
def sendLoop (attempts : Nat → Except String ToolContent) (retry : Nat) :
    Nat → Nat → ToolCallOutcome
  | 0, _ => .errorDict "工具调用失败"
  | remaining + 1, i =>
    match attempts i with
    | .ok c => .response (parseToolContent c)
    | .error e =>
      if i = retry - 1 then .raised e
      else if i < retry - 1 then sendLoop attempts retry remaining (i + 1)
      else .errorDict e

/-- `MCPClient.send_tool_call` (the dispatch loop; the lazy initial
`connect` precedes it and is not part of the retry policy). -/
def send_tool_call (attempts : Nat → Except String ToolContent) : ToolCallOutcome :=
  sendLoop attempts retry_attempts retry_attempts 0

/-! ## Result normalisation — `MCPClient._parse_mcp_result`

The summary builder; exceptions that Python would raise on malformed
values (`TypeError` from `in` on a non-string, `AttributeError` from
`.get` on a non-dict) are modelled as `.error` and propagate to
`process_user_intent`'s outer `except`. -/

/-- Python truthiness of a decoded JSON value. -/
def jTruthy : JVal → Bool
  | .null => false
  | .jbool b => b
  | .jstr s => s ≠ ""
  | .jnum raw =>
    (raw = "NaN" || raw = "Infinity" || raw = "-Infinity") ||
      (raw.data.takeWhile (fun c => c ≠ 'e' ∧ c ≠ 'E')).any
        (fun c => c.isDigit && c ≠ '0')
  | .jarr l => !l.isEmpty
  | .jobj l => !l.isEmpty

/-- Python dict `.get` (last duplicate key wins). -/
def jGet (fields : List (String × JVal)) (k : String) (dflt : JVal) : JVal :=
  match fields.reverse.find? (fun p => p.1 = k) with
  | some p => p.2
  | none => dflt

/-- How an f-string renders a decoded value (containers are elided — no
modelled path interpolates one). -/
def jShow : JVal → String
  | .jstr s => s
  | .jbool true => "True"
  | .jbool false => "False"
  | .null => "None"
  | .jnum raw => raw
  | .jarr _ => "[…]"
  | .jobj _ => "…"

/-- `f"{prefix}: {s}"` when a prefix was passed, else `s`. -/
def withPre (pre : Option String) (s : String) : String :=
  match pre with
  | some p => p ++ ": " ++ s
  | none => s

/-- The `result` field `_parse_mcp_result` reads from the dict it is
given: the payload for a tool response, `""` (the `.get` default) for the
error dict. -/
def payloadOf : ToolCallOutcome → ToolPayload
  | .response p => p
  | .errorDict _ => .text ""
  | .raised _ => .text ""

/-- `_parse_mcp_result` on one result dict: the returned summary, or the
exception Python would raise. -/
def parse_mcp_result (payload : ToolPayload) (pre : Option String) :
    Except String String :=
  match payload with
  | .jdict fields =>
    let successV := jGet fields "success" (.jbool false)
    let resultV := jGet fields "result" (.jstr "")
    let errorV := jGet fields "error" (.jstr "")
    let pathV := jGet fields "path" (.jstr "")
    (match resultV, errorV with
     | .jstr tool_result, .jstr error =>
       let is_folder_exists :=
         pyIn "文件夹已存在" tool_result || pyIn "文件夹已存在" error
       if jTruthy successV || is_folder_exists then
         let base :=
           if is_folder_exists then withPre pre "文件夹已存在"
           else withPre pre tool_result
         .ok (if jTruthy pathV then base ++ " (路径: " ++ jShow pathV ++ ")" else base)
       else
         .ok (match pre with
              | some p => p ++ " 错误: " ++ error
              | none => "执行错误: " ++ error)
     | _, _ => .error "TypeError: argument of type is not iterable")
  | .text s | .rdata s | .raw s =>
    (match json_loads s with
     | some (.jobj fields) =>
       let output := jGet fields "output" (.jstr "")
       let error := jGet fields "error" (.jstr "")
       if jTruthy output then .ok (withPre pre (jShow output))
       else if jTruthy error then
         .ok (match pre with
              | some p => p ++ " 错误: " ++ jShow error
              | none => "执行错误: " ++ jShow error)
       else .ok (withPre pre "执行成功！")
     | some _ => .error "AttributeError: get"
     | none => .ok (withPre pre s))

/-! ## Plan execution — `MCPClient.process_user_intent`, task branch

The `for i, step in enumerate(steps)` loop: the `interrupted` flag is read
at each step boundary; a dispatch that raises propagates to the outer
`except`, which returns `{"summary": f"处理失败: {e}", "plan": {}}`.  After
the loop every recorded result is summarised with prefix `步骤 i+1` and the
summaries are joined by blank lines.  `interrupted` is modelled as a
predicate on the boundary index; `dispatch i` is what `send_tool_call`
returned for step `i`.  Each outcome carries the `executed` trace — the
indices of the steps actually dispatched. -/

/-- Result of one plan execution. -/
inductive TaskRun where
  | interrupted (summary : String) (executed : List Nat)
  | failed (summary : String) (executed : List Nat)
  | completed (summary : String) (executed : List Nat)
deriving DecidableEq

/-- Join summaries with blank lines (`"\n\n".join`). -/
def joinBlank : List String → String
  | [] => ""
  | [s] => s
  | s :: r => s ++ "\n\n" ++ joinBlank r

/-- Summarise the recorded results with `步骤 i+1` prefixes. -/
def buildSummaries : List ToolCallOutcome → Nat → Except String (List String)
  | [], _ => .ok []
  | r :: rest, i =>
    match parse_mcp_result (payloadOf r) (some ("步骤 " ++ toString (i + 1))) with
    | .ok s => (fun l => s :: l) <$> buildSummaries rest (i + 1)
    | .error e => .error e

/-- The step loop: `remaining` counts the steps left (the loop runs once
per plan step), `i` is the current index. -/
def taskLoop (dispatch : Nat → ToolCallOutcome) (intr : Nat → Bool) :
    Nat → Nat → List ToolCallOutcome → List Nat → TaskRun
  | 0, _, results, trace =>
    (match buildSummaries results 0 with
     | .ok l => .completed (joinBlank l) trace
     | .error e => .failed ("处理失败: " ++ e) trace)
  | remaining + 1, i, results, trace =>
    if intr i then .interrupted "任务已被用户中断" trace
    else
      match dispatch i with
      | .raised e => .failed ("处理失败: " ++ e) (trace ++ [i])
      | outcome => taskLoop dispatch intr remaining (i + 1) (results ++ [outcome]) (trace ++ [i])

/-- Execute a plan of `n` steps. -/
def runTask (dispatch : Nat → ToolCallOutcome) (intr : Nat → Bool) (n : Nat) : TaskRun :=
  taskLoop dispatch intr n 0 [] []

/-- Did this dispatch outcome raise? -/
def ToolCallOutcome.isRaised : ToolCallOutcome → Bool
  | .raised _ => true
  | _ => false

/-! ## Helper lemmas -/

/-- A prefix of `s` is a prefix of `s ++ t`. -/
theorem listPre_append (p s t : List Char) (h : listPre p s = true) :
    listPre p (s ++ t) = true := by
  induction p generalizing s with
  | nil => simp [listPre]
  | cons c cs ih =>
    cases s with
    | nil => simp [listPre] at h
    | cons d ds =>
      simp only [List.cons_append, listPre, Bool.and_eq_true] at h ⊢
      exact ⟨h.1, ih ds h.2⟩

/-- `pyStarts` is preserved when text is appended. -/
theorem pyStarts_append (pre s t : String) (h : pyStarts s pre = true) :
    pyStarts (s ++ t) pre = true := by
  unfold pyStarts at h ⊢
  rw [String.data_append]
  exact listPre_append pre.data s.data t.data h

/-- The interruption flag `fun i => decide (k ≤ i)` (false at the
boundaries before steps `0 … k-1`, true from the boundary before step `k`)
stops the loop exactly at step `k`: steps `0 … k-1` are dispatched, the
fixed cancellation summary comes back.  `m` counts the boundaries left
before `k`. -/
theorem taskLoopInterruptAux (dispatch : Nat → ToolCallOutcome) (k : Nat)
    (hnr : ∀ i, i < k → (dispatch i).isRaised = false) :
    ∀ (m j R : Nat) (results : List ToolCallOutcome) (trace : List Nat),
      j + m = k → k < j + R →
      taskLoop dispatch (fun i => decide (k ≤ i)) R j results trace =
        .interrupted "任务已被用户中断" (trace ++ List.range' j m) := by
  intro m
  induction m with
  | zero =>
    intro j R results trace hj hR
    have hjk : j = k := by omega
    subst hjk
    match R with
    | 0 => omega
    | R + 1 =>
      simp [taskLoop, List.range']
  | succ m ih =>
    intro j R results trace hj hR
    match R with
    | 0 => omega
    | R + 1 =>
      have hjk : ¬ (k ≤ j) := by omega
      have hd := hnr j (by omega)
      have hrange : List.range' j (m + 1) = j :: List.range' (j + 1) m :=
        List.range'_succ j m 1
      rcases hdo : dispatch j with p | e | e
      · rw [show taskLoop dispatch (fun i => decide (k ≤ i)) (R + 1) j results trace =
            taskLoop dispatch (fun i => decide (k ≤ i)) R (j + 1)
              (results ++ [.response p]) (trace ++ [j]) by
            simp [taskLoop, hjk, hdo]]
        rw [ih (j + 1) R (results ++ [ToolCallOutcome.response p]) (trace ++ [j]) (by omega) (by omega)]
        rw [hrange, List.append_assoc]
        simp
      · rw [show taskLoop dispatch (fun i => decide (k ≤ i)) (R + 1) j results trace =
            taskLoop dispatch (fun i => decide (k ≤ i)) R (j + 1)
              (results ++ [.errorDict e]) (trace ++ [j]) by
            simp [taskLoop, hjk, hdo]]
        rw [ih (j + 1) R (results ++ [ToolCallOutcome.errorDict e]) (trace ++ [j]) (by omega) (by omega)]
        rw [hrange, List.append_assoc]
        simp
      · rw [hdo] at hd
        simp [ToolCallOutcome.isRaised] at hd

/-! ## Claim theorems -/

/-- C2: a module name whose top-level component is on the sandbox deny-list
(or that is a dotted submodule of a denied module) raises `ImportError`;
every other name — general file-system modules such as `os` and `pathlib`
included — is delegated to the real `__import__`. -/
theorem c2_sandbox_import_denylist :
    (∀ name : String,
      (∃ msg, safe_import name = .importDenied msg) ↔
        (topModule name ∈ dangerous_modules ∨
          ∃ d ∈ dangerous_modules, pyStarts name (d ++ ".") = true))
    ∧ (∀ name : String,
      safe_import name = .delegated name ↔
        ¬ (topModule name ∈ dangerous_modules ∨
          ∃ d ∈ dangerous_modules, pyStarts name (d ++ ".") = true))
    ∧ safe_import "os" = .delegated "os"
    ∧ safe_import "pathlib" = .delegated "pathlib"
    ∧ safe_import "socket" = .importDenied "模块 'socket' 被禁止在沙箱中导入（安全限制）"
    ∧ safe_import "http.client" = .importDenied "模块 'http.client' 被禁止在沙箱中导入（安全限制）" := by
  refine ⟨safe_import_denied_iff, ?_, by decide, by decide, by decide, by decide⟩
  intro name
  unfold safe_import
  by_cases h1 : topModule name ∈ dangerous_modules
  · simp [h1]
  · by_cases h2 : dangerous_modules.any (fun d => pyStarts name (d ++ ".")) = true
    · simp [h1, h2]
      exact List.any_eq_true.mp h2
    · simp [h1, h2]
      intro d hd
      have := List.any_eq_true.not.mp h2
      push_neg at this
      exact Bool.not_eq_true _ ▸ this d hd

/-- C7: with no response inside the 30-second window, the elicitation
round resolves to declined (`false`) automatically; the cancelled future is
done, so a late `set_elicitation_result` is a no-op (the request resolves
exactly once); and a later round starts from a fresh future and works
normally. -/
theorem c7_elicitation_timeout :
    (∀ st : WorkerElicit,
      elicitationRound st none = (⟨some .cancelled⟩, false))
    ∧ (∀ r : Bool,
      set_elicitation_result ⟨some .cancelled⟩ r = ⟨some .cancelled⟩)
    ∧ (∀ (st : WorkerElicit) (r : Bool),
      elicitationRound st (some r) = (⟨some (.resolved r)⟩, r)) :=
  ⟨fun _ => rfl, fun _ => rfl, fun _ _ => rfl⟩

/-- C4 (the code at the failing input): when `connect` on a fresh manager
fails at `initialize`, the call reports failure and `connected` stays
false, but the except-branch's `close()` returns immediately (the
`if not self.connected` guard), so the entered stream context and client
session are NOT released — against the claim. -/
theorem c4_connect_failure_leaks :
    (SessionMgr.fresh.connect (some .initCall)).2 = false
    ∧ (SessionMgr.fresh.connect (some .initCall)).1.connected = false
    ∧ (SessionMgr.fresh.connect (some .initCall)).1.streamEntered = true
    ∧ (SessionMgr.fresh.connect (some .initCall)).1.sessionEntered = true := by
  decide

/-- C9: `_extract_file_paths` always returns a duplicate-free list of at
most five entries, and a delete call carrying a string-literal path has
that path extracted and reported inside the flagged message. -/
theorem c9_extract_paths :
    (∀ (code : String) (operations : List String),
      (extract_file_paths code operations).Nodup ∧
        (extract_file_paths code operations).length ≤ 5)
    ∧ extract_file_paths "shutil.rmtree('C:/data')" [ "shutil.rmtree" ] = [ "C:/data" ]
    ∧ check_dangerous_operation "shutil.rmtree('C:/data')" =
        some "检测到文件删除操作，要删除的文件: C:/data，是否确认执行？"
    ∧ pyIn "C:/data" "检测到文件删除操作，要删除的文件: C:/data，是否确认执行？" = true := by
  refine ⟨?_, by decide, by decide, by decide⟩
  intro code operations
  unfold extract_file_paths
  constructor
  · exact (List.take_sublist 5 _).nodup
      (((List.nodup_dedup _)).filter (fun p => p ≠ ""))
  · exact List.length_take_le 5 _

/-- C10: an internal exception inside the security check makes
`check_tool_call` return `False` (fail closed); the function is total, so
no exception reaches its caller.  A non-string `code` argument is such an
input: `.lower()` raises `AttributeError`. -/
theorem c10_fail_closed :
    (∀ (tool_name : String) (tool_args : List (String × JVal)) (e : String),
      check_tool_call_body tool_name tool_args = .error e →
      check_tool_call tool_name tool_args = false)
    ∧ check_tool_call_body "execute_python" [ ("code", .jnum "5") ] =
        .error "AttributeError: lower" := by
  constructor
  · intro tool_name tool_args e h
    unfold check_tool_call
    rw [h]
  · rfl

/-- C10 witness: the fail-closed theorem applied to the concrete
non-string `code` argument. -/
theorem c10_fail_closed_witness :
    check_tool_call "execute_python" [ ("code", .jnum "5") ] = false :=
  c10_fail_closed.1 "execute_python" [ ("code", .jnum "5") ]
    "AttributeError: lower" (by rfl)

/-- C1: when the classifier flags the code of an `execute_python` call, the
sandbox runs the code exactly when the elicitation response has
`action = accept` and `confirmed = True`; any other response makes the tool
return the user-cancelled error result without executing the code. -/
theorem c1_execute_python_gated (code msg : String) (elicit : String → ElicitOutcome)
    (hflag : check_dangerous_operation code = some msg) :
    (execute_python code elicit = .sandboxExecuted code ↔
      ((elicit msg).action = .accept ∧ (elicit msg).confirmed = true))
    ∧ (¬ ((elicit msg).action = .accept ∧ (elicit msg).confirmed = true) →
      execute_python code elicit = .userCancelled false "用户取消执行") := by
  unfold execute_python
  rw [hflag]
  by_cases ha : (elicit msg).action = ElicitAction.accept <;>
    by_cases hc : (elicit msg).confirmed = true <;>
    simp [ha, hc]

/-- C1 witness: `eval(x)` is flagged; an accept-and-confirmed response lets
the sandbox run, a non-confirmed accept cancels. -/
theorem c1_execute_python_gated_witness :
    check_dangerous_operation "eval(x)" = some "检测到危险操作: eval(，是否确认执行？"
    ∧ execute_python "eval(x)" (fun _ => ⟨.accept, true⟩) = .sandboxExecuted "eval(x)"
    ∧ execute_python "eval(x)" (fun _ => ⟨.accept, false⟩) =
        .userCancelled false "用户取消执行" := by
  refine ⟨by decide, ?_, ?_⟩
  · exact (c1_execute_python_gated "eval(x)" "检测到危险操作: eval(，是否确认执行？"
      (fun _ => ⟨.accept, true⟩) (by decide)).1.mpr ⟨rfl, rfl⟩
  · exact (c1_execute_python_gated "eval(x)" "检测到危险操作: eval(，是否确认执行？"
      (fun _ => ⟨.accept, false⟩) (by decide)).2 (by simp)

/-- C5 counterexample: a code string containing both the hard-denied call
`eval(` and a write-mode `open` is reported as a file-write, not as the
hard-denied category — the write check runs first. -/
theorem c5_counterexample :
    pyIn "eval(" (pyLower "eval(x)\nopen('f.txt', 'w')") = true
    ∧ check_dangerous_operation "eval(x)\nopen('f.txt', 'w')" =
        some "检测到文件写入操作，要写入的文件: f.txt，是否确认执行？" := by
  decide

/-- C5 (amended): the sub-categories run in the order write-mode opens,
file deletes, directory operations, hard-denied calls — so whenever a
write-mode `open` is present the flagged message is the file-write one,
whatever else the code contains. -/
theorem c5_write_priority (code : String)
    (hopen : pyIn "open(" (pyLower code) = true)
    (hmode : write_modes.any (fun m => pyIn m (pyLower code)) = true) :
    ∃ msg, check_dangerous_operation code = some msg ∧
      pyStarts msg "检测到文件写入操作" = true := by
  by_cases hf : (extract_file_paths code [ "open(" ]).isEmpty
  · refine ⟨ "检测到文件写入操作，是否确认执行？", ?_, by decide⟩
    unfold check_dangerous_operation
    simp [hopen, hmode, hf]
  · refine ⟨ "检测到文件写入操作，要写入的文件: " ++
      joinComma (extract_file_paths code [ "open(" ]) ++ "，是否确认执行？", ?_, ?_⟩
    · unfold check_dangerous_operation
      simp [hopen, hmode, hf]
    · have h1 : pyStarts "检测到文件写入操作，要写入的文件: " "检测到文件写入操作" = true := by
        decide
      exact pyStarts_append _ _ _ (pyStarts_append _ _ _ h1)

/-- C5 witness: the priority theorem at the counterexample's input. -/
theorem c5_write_priority_witness :
    ∃ msg, check_dangerous_operation "eval(x)\nopen('f.txt', 'w')" = some msg ∧
      pyStarts msg "检测到文件写入操作" = true :=
  c5_write_priority "eval(x)\nopen('f.txt', 'w')" (by decide) (by decide)

/-- C3 counterexample: a step whose dispatch raises (all retries spent)
aborts the whole plan — the run fails with `处理失败` and step 2 is never
dispatched; a user cancellation, by contrast, is an ordinary tool response
and the plan continues to step 2. -/
theorem c3_counterexample :
    runTask
        (fun i => if i = 0 then .raised "连接失败"
          else .response (.jdict [ ("success", .jbool true), ("result", .jstr "完成") ]))
        (fun _ => false) 2 =
      .failed "处理失败: 连接失败" [ 0 ]
    ∧ runTask
        (fun i => if i = 0 then
            .response (.jdict [ ("success", .jbool false), ("error", .jstr "用户取消执行") ])
          else .response (.jdict [ ("success", .jbool true), ("result", .jstr "完成") ]))
        (fun _ => false) 2 =
      .completed "步骤 1 错误: 用户取消执行\n\n步骤 2: 完成" [ 0, 1 ] := by
  decide

/-- C3 (amended): dispatch is retried up to 3 attempts and only the final
attempt's failure is surfaced — by re-raising, which aborts the remaining
plan and turns the step's error into the whole run's failure summary; a
user cancellation arrives as an ordinary tool response and does not
terminate the plan. -/
theorem c3_retry_abort_semantics :
    (∀ (attempts : Nat → Except String ToolContent) (e0 e1 e2 : String),
      attempts 0 = .error e0 → attempts 1 = .error e1 → attempts 2 = .error e2 →
      send_tool_call attempts = .raised e2)
    ∧ (∀ (dispatch : Nat → ToolCallOutcome) (intr : Nat → Bool) (n : Nat) (e : String),
      0 < n → intr 0 = false → dispatch 0 = .raised e →
      runTask dispatch intr n = .failed ("处理失败: " ++ e) [ 0 ])
    ∧ runTask
        (fun i => if i = 0 then
            .response (.jdict [ ("success", .jbool false), ("error", .jstr "用户取消执行") ])
          else .response (.jdict [ ("success", .jbool true), ("result", .jstr "完成") ]))
        (fun _ => false) 2 =
      .completed "步骤 1 错误: 用户取消执行\n\n步骤 2: 完成" [ 0, 1 ] := by
  refine ⟨?_, ?_, by decide⟩
  · intro attempts e0 e1 e2 h0 h1 h2
    simp [send_tool_call, sendLoop, retry_attempts, h0, h1, h2]
  · intro dispatch intr n e hn h0 hd
    match n, hn with
    | n + 1, _ =>
      simp [runTask, taskLoop, h0, hd]

/-- C3 witness: the retry and abort theorems at concrete inputs. -/
theorem c3_retry_abort_semantics_witness :
    send_tool_call (fun _ => .error "连接失败") = .raised "连接失败"
    ∧ runTask (fun _ => .raised "连接失败") (fun _ => false) 2 =
        .failed ("处理失败: " ++ "连接失败") [ 0 ] :=
  ⟨c3_retry_abort_semantics.1 (fun _ => .error "连接失败") "连接失败" "连接失败" "连接失败"
      rfl rfl rfl,
    c3_retry_abort_semantics.2.1 (fun _ => .raised "连接失败") (fun _ => false) 2 "连接失败"
      (by decide) rfl rfl⟩

/-- C6 counterexample: with the interrupt flag raised after step 1 started,
the run halts before step 2, but the returned result is the fixed
cancellation summary — identical whatever step 1 produced and not
containing it — rather than a partial-result summary covering the executed
step. -/
theorem c6_counterexample :
    runTask
        (fun _ => .response (.jdict [ ("success", .jbool true), ("result", .jstr "第一步输出A") ]))
        (fun i => decide (1 ≤ i)) 2 =
      .interrupted "任务已被用户中断" [ 0 ]
    ∧ runTask
        (fun _ => .response (.jdict [ ("success", .jbool true), ("result", .jstr "第一步输出B") ]))
        (fun i => decide (1 ≤ i)) 2 =
      .interrupted "任务已被用户中断" [ 0 ]
    ∧ pyIn "第一步输出A" "任务已被用户中断" = false := by
  decide

/-- C6 (amended): an interrupt set after step `k` started (boundary checks
before steps `1 … k` see it clear, the check before step `k+1` sees it set)
lets step `k` finish, dispatches exactly steps `0 … k-1`, and returns the
fixed summary `任务已被用户中断` — discarding the executed steps' results. -/
theorem c6_interrupt_at_boundary (dispatch : Nat → ToolCallOutcome) (k n : Nat)
    (hk : k < n) (hnr : ∀ i, i < k → (dispatch i).isRaised = false) :
    runTask dispatch (fun i => decide (k ≤ i)) n =
      .interrupted "任务已被用户中断" (List.range k) := by
  have h := taskLoopInterruptAux dispatch k hnr k 0 n [] [] (by omega) (by omega)
  simpa [runTask, List.range_eq_range'] using h

/-- C6 witness: the boundary theorem on a two-step plan interrupted during
step 1. -/
theorem c6_interrupt_at_boundary_witness :
    runTask
        (fun _ => .response (.jdict [ ("success", .jbool true), ("result", .jstr "完成") ]))
        (fun i => decide (1 ≤ i)) 2 =
      .interrupted "任务已被用户中断" (List.range 1) :=
  c6_interrupt_at_boundary _ 1 2 (by decide) (fun _ _ => rfl)

/-- C8 counterexample: `clean_json_response` strips surrounding whitespace
even from an already-valid JSON string, so it is not the identity on valid
inputs; and a string with one extra trailing comma is not repaired —
`validate_and_fix_json` returns it unchanged and it still fails to
parse. -/
theorem c8_counterexample :
    (isValidJson " \x7b\x7d" = true
      ∧ clean_json_response " \x7b\x7d" = "\x7b\x7d"
      ∧ ¬ (" \x7b\x7d" : String) = "\x7b\x7d")
    ∧ (validate_and_fix_json "\x7b\"plan\": \"p\", \"steps\": [],\x7d" =
        "\x7b\"plan\": \"p\", \"steps\": [],\x7d"
      ∧ isValidJson (validate_and_fix_json "\x7b\"plan\": \"p\", \"steps\": [],\x7d") =
        false) := by
  decide

/-- C8 (amended): `validate_and_fix_json` is the identity on valid JSON and
`clean_json_response` is the identity on stripped valid JSON (it strips
first); a `plan`/`steps` document missing its closing brace is repaired
into the intended parseable document (same step list); a trailing-comma
defect is not repaired — the original string comes back. -/
theorem c8_repair_behaviour :
    (∀ s : String, isValidJson s = true → validate_and_fix_json s = s)
    ∧ (∀ s : String, pyStrip s = s → isValidJson s = true → clean_json_response s = s)
    ∧ (validate_and_fix_json "\x7b\"plan\": \"p\", \"steps\": []" =
        "\x7b\"plan\": \"p\", \"steps\": []\x7d"
      ∧ isValidJson "\x7b\"plan\": \"p\", \"steps\": []\x7d" = true)
    ∧ (validate_and_fix_json "\x7b\"plan\": \"p\", \"steps\": [],\x7d" =
        "\x7b\"plan\": \"p\", \"steps\": [],\x7d"
      ∧ isValidJson "\x7b\"plan\": \"p\", \"steps\": [],\x7d" = false) := by
  refine ⟨?_, ?_, by decide, by decide⟩
  · intro s h
    unfold validate_and_fix_json
    rw [if_pos h]
  · intro s hstrip hvalid
    simp [clean_json_response, hstrip, hvalid]

/-- C8 witness: both identity statements at a concrete valid document. -/
theorem c8_repair_behaviour_witness :
    validate_and_fix_json "\x7b\"plan\": \"p\", \"steps\": []\x7d" =
      "\x7b\"plan\": \"p\", \"steps\": []\x7d"
    ∧ clean_json_response "\x7b\"plan\": \"p\", \"steps\": []\x7d" =
      "\x7b\"plan\": \"p\", \"steps\": []\x7d" :=
  ⟨c8_repair_behaviour.1 _ (by decide),
    c8_repair_behaviour.2.1 _ (by decide) (by decide)⟩

end IDesk
